import Mathlib

/-!
Verification development for the record-browsing application in app.py.
Pure functions of the source (link resolution, record keys, column
validation, grouping, pagination arithmetic, progress export/import) are
embedded as Lean definitions; the Streamlit session state is embedded as
an explicit state record with the module-level handlers as state
transformers.
-/

namespace Karine

/-- Named characters, so that string literals in this file stay free of
characters that have special meaning elsewhere. -/
def qC : Char := Char.ofNat 34

def bsC : Char := Char.ofNat 92

def lbC : Char := Char.ofNat 123

def rbC : Char := Char.ofNat 125

/-- Python str.strip default whitespace set (ASCII part). -/
def isPyWs (c : Char) : Bool :=
  c = ' ' || c = Char.ofNat 9 || c = Char.ofNat 10 || c = Char.ofNat 13 ||
  c = Char.ofNat 11 || c = Char.ofNat 12

/-- Embedding of Python str.strip (leading and trailing whitespace removed). -/
def pyStrip (s : String) : String :=
  (((s.toList.dropWhile isPyWs).reverse.dropWhile isPyWs).reverse).asString

/-- Embedding of Python str.lower restricted to ASCII letters (sufficient for
the http prefix test of app.py line 169). -/
def asciiLowerChar (c : Char) : Char :=
  if 65 ≤ c.toNat ∧ c.toNat ≤ 90 then Char.ofNat (c.toNat + 32) else c

def asciiLower (s : String) : String :=
  (s.toList.map asciiLowerChar).asString

/-- Embedding of the tuple test s.startswith(("http://", "https://")). -/
def startsWithHttp (s : String) : Bool :=
  "http://".toList.isPrefixOf s.toList || "https://".toList.isPrefixOf s.toList

/-- Lowercase hexadecimal digit (as used by urllib and json for escapes). -/
def hexDigitLower (n : Nat) : Char :=
  if n < 10 then Char.ofNat (48 + n) else Char.ofNat (87 + n)

/-- Uppercase hexadecimal digit (urllib.parse.quote uses uppercase). -/
def hexDigitUpper (n : Nat) : Char :=
  if n < 10 then Char.ofNat (48 + n) else Char.ofNat (55 + n)

/-- UTF-8 encoding of one character, as a list of byte values. -/
def utf8Bytes (c : Char) : List Nat :=
  let n := c.toNat
  if n < 128 then [n]
  else if n < 2048 then [192 + n / 64, 128 + n % 64]
  else if n < 65536 then [224 + n / 4096, 128 + (n / 64) % 64, 128 + n % 64]
  else [240 + n / 262144, 128 + (n / 4096) % 64, 128 + (n / 64) % 64, 128 + n % 64]

/-- Per-byte translation of urllib.parse.quote_plus: unreserved bytes kept,
space becomes a plus sign, everything else percent-encoded. -/
def quotePlusByte (n : Nat) : List Char :=
  if (65 ≤ n ∧ n ≤ 90) ∨ (97 ≤ n ∧ n ≤ 122) ∨ (48 ≤ n ∧ n ≤ 57) ∨
     n = 95 ∨ n = 46 ∨ n = 45 ∨ n = 126 then [Char.ofNat n]
  else if n = 32 then ['+']
  else ['%', hexDigitUpper (n / 16), hexDigitUpper (n % 16)]

/-- Embedding of urllib.parse.quote_plus over the UTF-8 bytes of the input. -/
def quotePlus (s : String) : String :=
  ((s.toList.flatMap utf8Bytes).flatMap quotePlusByte).asString

/-- The fixed Google Scholar query template of app.py line 163 applied to the
already stripped title. -/
def scholarLink (titulo : String) : String :=
  "https://scholar.google.com/scholar?q=" ++ quotePlus titulo

/-- Embedding of app.py lines 158 and 161 to 170: titulo, link_acesso and doi
are stringified and stripped, then the link and the DOI fall back to the
Google Scholar query when the stripped value does not start (case
insensitively) with http:// or https://. Returns (link_final, doi_final). -/
def renderLinks (titulo link_acesso doi : String) : String × String :=
  let tituloS := pyStrip titulo
  let link_raw := pyStrip link_acesso
  let doi_raw := pyStrip doi
  let scholar := scholarLink tituloS
  ( if startsWithHttp (asciiLower link_raw) then link_raw else scholar,
    if startsWithHttp (asciiLower doi_raw) then doi_raw else scholar )

/-- The fields that make_record_key reads from the rendered row dict, each
optional because the source accesses them with dict.get and a default. -/
structure KeyRow where
  id_registro : Option String
  conceito : Option String
  idx : Option Nat
deriving DecidableEq, Repr

/-- Embedding of make_record_key (app.py lines 63 to 66): missing fields
default to the empty string, the position index is stringified. -/
def make_record_key (row : KeyRow) : String :=
  let base := (row.id_registro.getD "") ++ "-" ++ (row.conceito.getD "")
  let idx := match row.idx with
    | some n => toString n
    | none => ""
  "k::" ++ base ++ "::" ++ idx

/-- PAGE_SIZE of app.py line 45. -/
def PAGE_SIZE : Nat := 20

/-- Embedding of the slice records[start : start + PAGE_SIZE] of app.py
lines 154 to 156 (Python slicing clamps out-of-range bounds, as drop and
take do). -/
def visibleRecords (records : List α) (start : Nat) : List α :=
  (records.drop start).take PAGE_SIZE

/-- The load-more button of app.py line 197 is rendered only when
end = start + PAGE_SIZE is strictly below the bucket size. -/
def loadMoreShown (total start : Nat) : Bool :=
  start + PAGE_SIZE < total

/-- Cursor value stored while rendering a bucket (app.py lines 197 to 201):
kept as is while the button is offered, reset to 0 once the bucket is
exhausted. -/
def renderCursorUpdate (total start : Nat) : Nat :=
  if start + PAGE_SIZE < total then start else 0

/-- Clicking the load-more button stores end = start + PAGE_SIZE as the new
cursor (app.py line 199). -/
def clickLoadMore (start : Nat) : Nat :=
  start + PAGE_SIZE

/-- REQUIRED_COLS of app.py lines 39 to 43. -/
def REQUIRED_COLS : List String :=
  ["id_registro", "id_extracao", "titulo_artigo", "area_publicacao",
   "periodico", "ano_publicacao", "autoria", "link_acesso",
   "doi", "categoria", "conceito", "descricao"]

/-- Embedding of validate_columns (app.py lines 52 to 53): the required
columns absent from the table, in REQUIRED_COLS order. -/
def validate_columns (cols : List String) : List String :=
  REQUIRED_COLS.filter (fun c => ¬ cols.contains c)

/-- The rejection message of app.py line 116, listing every missing column
in one message. -/
def missingColumnsMessage (missing : List String) : String :=
  "Arquivo invalido. Colunas ausentes: " ++ String.intercalate ", " missing

/-- One row of the input table, with the twelve required columns. categoria
and conceito are string typed (the source coerces them with astype(str)
before sorting); ano_publicacao is the numeric publication year. -/
structure Record where
  id_registro : String
  id_extracao : String
  titulo_artigo : String
  area_publicacao : String
  periodico : String
  ano_publicacao : Int
  autoria : String
  link_acesso : String
  doi : String
  categoria : String
  conceito : String
  descricao : String
deriving DecidableEq, Repr

/-- A record paired with its original position index, the __idx__ column
added by reset_index in preprocess_data (app.py line 84). -/
abbrev Row := Record × Nat

/-- The four-column sort key of app.py line 87, compared lexicographically
column by column as pandas sort_values does. -/
def sortKey (r : Row) : Lex (String × Lex (String × Lex (String × Int))) :=
  toLex (r.1.categoria, toLex (r.1.conceito, toLex (r.1.id_registro, r.1.ano_publicacao)))

/-- The sort relation used by the embedding of sort_values. -/
def rowLe (a b : Row) : Prop :=
  sortKey a ≤ sortKey b

instance : DecidableRel rowLe := fun a b =>
  inferInstanceAs (Decidable (sortKey a ≤ sortKey b))

instance : IsTotal Row rowLe :=
  ⟨fun a b => le_total (sortKey a) (sortKey b)⟩

instance : IsTrans Row rowLe :=
  ⟨fun _ _ _ h h2 => le_trans h h2⟩

/-- Deduplication keeping first occurrences, with an accumulator of the
keys already seen. -/
def dedupFirstSeen (seen : List String) : List String → List String
  | [] => []
  | k :: ks =>
    if seen.contains k then dedupFirstSeen seen ks
    else k :: dedupFirstSeen (k :: seen) ks

/-- First occurrence of each key value, in stream order: the group keys that
pandas groupby with sort=False produces. -/
def firstSeen (f : α → String) (xs : List α) : List String :=
  dedupFirstSeen [] (xs.map f)

/-- Embedding of pandas groupby(key, sort=False): group keys in first-seen
order, each key mapped to every row carrying that key, in stream order. -/
def groupByKey (f : α → String) (xs : List α) : List (String × List α) :=
  (firstSeen f xs).map (fun k => (k, xs.filter (fun y => f y = k)))

/-- The two-level category to concept to records index. -/
abbrev GroupIndex := List (String × List (String × List Row))

/-- Embedding of preprocess_data (app.py lines 82 to 93): attach position
indices, stable-sort by (categoria, conceito, id_registro, ano_publicacao)
(pandas sort_values on several columns uses a stable lexsort), then group
by categoria and, inside each category, by conceito, both with sort=False. -/
def preprocess_data (rows : List Record) : GroupIndex :=
  let indexed : List Row := rows.enum.map (fun p => (p.2, p.1))
  let sorted := indexed.insertionSort rowLe
  (groupByKey (fun r => r.1.categoria) sorted).map
    (fun p => (p.1, groupByKey (fun r => r.1.conceito) p.2))

/-- The Streamlit session state slots that the source reads and writes:
df, status_map (ProgressStore), data_dict (GroupIndex) and the dynamically
keyed page cursors (one slot per bucket, absent until first written). -/
structure SessionState where
  df : Option (List Record)
  status_map : List (String × Bool)
  data_dict : GroupIndex
  pageCursors : List (String × Nat)
deriving Repr

/-- ensure_session_state defaults (app.py lines 55 to 61) for a fresh
session: page cursor slots start absent. -/
def initSessionState : SessionState :=
  { df := none, status_map := [], data_dict := [], pageCursors := [] }

/-- The session key of the cursor of bucket (cat, conc), the f-string of
app.py line 154. -/
def pageKey (cat conc : String) : String :=
  "page_" ++ cat ++ "_" ++ conc

/-- st.session_state.get(page key, 0) of app.py line 154. -/
def pageStart (st : SessionState) (cat conc : String) : Nat :=
  ((st.pageCursors.lookup (pageKey cat conc)).getD 0)

/-- Embedding of the upload and process block (app.py lines 111 to 124):
a table whose columns fail validation is rejected with the missing list and
the session is untouched; otherwise processing stores the dataframe and the
rebuilt group index. No other session slot is written: status_map and the
page cursor slots keep their previous values. -/
def processUpload (st : SessionState) (cols : List String) (rows : List Record) :
    SessionState × Option (List String) :=
  let missing := validate_columns cols
  if missing.isEmpty then
    ({ st with df := some rows, data_dict := preprocess_data rows }, none)
  else
    (st, some missing)

/-- JSON values, as produced by json.loads. Numbers are represented by an
integer that is zero exactly when the parsed literal denotes zero, which is
all that the truthiness coercion bool(v) observes. -/
inductive Json where
  | null : Json
  | bool : Bool → Json
  | num : Int → Json
  | str : String → Json
  | arr : List Json → Json
  | obj : List (String × Json) → Json

/-- JSON whitespace, as skipped by json.loads between tokens. -/
def isJsonWs (c : Char) : Bool :=
  c = ' ' || c = Char.ofNat 9 || c = Char.ofNat 10 || c = Char.ofNat 13

def skipWs : List Char → List Char
  | [] => []
  | c :: cs => if isJsonWs c then skipWs cs else c :: cs

/-- One hexadecimal digit of a \u escape. -/
def parseHexDigit (c : Char) : Option Nat :=
  if 48 ≤ c.toNat ∧ c.toNat ≤ 57 then some (c.toNat - 48)
  else if 97 ≤ c.toNat ∧ c.toNat ≤ 102 then some (c.toNat - 87)
  else if 65 ≤ c.toNat ∧ c.toNat ≤ 70 then some (c.toNat - 55)
  else none

/-- Body of a JSON string literal, after the opening quote: returns the
decoded characters and the input after the closing quote. Unescaped control
characters are rejected, as json.loads does in strict mode. The fuel only
bounds the recursion depth; callers pass one more than the input length,
which is always sufficient since every step consumes input. -/
def parseStringBody : Nat → List Char → Option (List Char × List Char)
  | 0, _ => none
  | Nat.succ fuel, l =>
    match l with
    | [] => none
    | c :: cs =>
      if c = qC then some ([], cs)
      else if c = bsC then
        match cs with
        | [] => none
        | e :: cs2 =>
          if e = qC then (parseStringBody fuel cs2).map (fun p => (qC :: p.1, p.2))
          else if e = bsC then (parseStringBody fuel cs2).map (fun p => (bsC :: p.1, p.2))
          else if e = '/' then (parseStringBody fuel cs2).map (fun p => ('/' :: p.1, p.2))
          else if e = 'b' then (parseStringBody fuel cs2).map (fun p => (Char.ofNat 8 :: p.1, p.2))
          else if e = 'f' then (parseStringBody fuel cs2).map (fun p => (Char.ofNat 12 :: p.1, p.2))
          else if e = 'n' then (parseStringBody fuel cs2).map (fun p => (Char.ofNat 10 :: p.1, p.2))
          else if e = 'r' then (parseStringBody fuel cs2).map (fun p => (Char.ofNat 13 :: p.1, p.2))
          else if e = 't' then (parseStringBody fuel cs2).map (fun p => (Char.ofNat 9 :: p.1, p.2))
          else if e = 'u' then
            match cs2 with
            | h1 :: h2 :: h3 :: h4 :: cs3 =>
              match parseHexDigit h1, parseHexDigit h2, parseHexDigit h3, parseHexDigit h4 with
              | some a, some b, some c3, some d =>
                (parseStringBody fuel cs3).map
                  (fun p => (Char.ofNat (((a * 16 + b) * 16 + c3) * 16 + d) :: p.1, p.2))
              | _, _, _, _ => none
            | _ => none
          else none
      else if c.toNat < 32 then none
      else (parseStringBody fuel cs).map (fun p => (c :: p.1, p.2))

def digitsToNat (ds : List Char) : Nat :=
  ds.foldl (fun acc c => acc * 10 + (c.toNat - 48)) 0

/-- A JSON number literal: optional minus, integer digits, optional fraction
and exponent. The stored integer is the signed mantissa (integer and
fraction digits), which is zero exactly when the number is zero. -/
def parseNumber (s : List Char) : Option (Json × List Char) :=
  let (neg, s1) := match s with
    | c :: cs => if c = '-' then (true, cs) else (false, s)
    | [] => (false, s)
  let ds := s1.takeWhile Char.isDigit
  let s2 := s1.dropWhile Char.isDigit
  if ds.isEmpty then none
  else
    let (mantissa, s3) := match s2 with
      | c :: cs =>
        if c = '.' then
          let fs := cs.takeWhile Char.isDigit
          let s3 := cs.dropWhile Char.isDigit
          if fs.isEmpty then (none, s2)
          else (some (digitsToNat (ds ++ fs)), s3)
        else (some (digitsToNat ds), s2)
      | [] => (some (digitsToNat ds), s2)
    match mantissa with
    | none => none
    | some m =>
      let (expOk, s4) := match s3 with
        | c :: cs =>
          if c = 'e' ∨ c = 'E' then
            let cs2 := match cs with
              | c2 :: cs2 => if c2 = '+' ∨ c2 = '-' then cs2 else cs
              | [] => cs
            let es := cs2.takeWhile Char.isDigit
            if es.isEmpty then (false, s3)
            else (true, cs2.dropWhile Char.isDigit)
          else (true, s3)
        | [] => (true, s3)
      if expOk then
        some (Json.num (if neg then -(m : Int) else (m : Int)), s4)
      else none

mutual

/-- Recursive-descent JSON value parser with a recursion fuel; the fuel is
spent once per nesting step, so any fuel at least the input length plus one
is enough. -/
def parseValue : Nat → List Char → Option (Json × List Char)
  | 0, _ => none
  | Nat.succ fuel, s =>
    match skipWs s with
    | [] => none
    | c :: cs =>
      if c = lbC then
        match skipWs cs with
        | [] => none
        | c2 :: cs2 =>
          if c2 = rbC then some (Json.obj [], cs2)
          else (parseObjItems fuel (c2 :: cs2)).map (fun p => (Json.obj p.1, p.2))
      else if c = '[' then
        match skipWs cs with
        | [] => none
        | c2 :: cs2 =>
          if c2 = ']' then some (Json.arr [], cs2)
          else (parseArrItems fuel (c2 :: cs2)).map (fun p => (Json.arr p.1, p.2))
      else if c = qC then
        (parseStringBody (cs.length + 1) cs).map (fun p => (Json.str (String.mk p.1), p.2))
      else if c = 't' then
        match cs with
        | 'r' :: 'u' :: 'e' :: r => some (Json.bool true, r)
        | _ => none
      else if c = 'f' then
        match cs with
        | 'a' :: 'l' :: 's' :: 'e' :: r => some (Json.bool false, r)
        | _ => none
      else if c = 'n' then
        match cs with
        | 'u' :: 'l' :: 'l' :: r => some (Json.null, r)
        | _ => none
      else if c = '-' ∨ c.isDigit then parseNumber (c :: cs)
      else none

/-- Members of a JSON object, starting at the first key. -/
def parseObjItems : Nat → List Char → Option (List (String × Json) × List Char)
  | 0, _ => none
  | Nat.succ fuel, s =>
    match s with
    | [] => none
    | c :: cs =>
      if c = qC then
        match parseStringBody (cs.length + 1) cs with
        | none => none
        | some (k, r1) =>
          match skipWs r1 with
          | [] => none
          | c2 :: r2 =>
            if c2 = ':' then
              match parseValue fuel r2 with
              | none => none
              | some (v, r3) =>
                match skipWs r3 with
                | [] => none
                | c3 :: r4 =>
                  if c3 = ',' then
                    (parseObjItems fuel (skipWs r4)).map
                      (fun p => ((String.mk k, v) :: p.1, p.2))
                  else if c3 = rbC then some ([(String.mk k, v)], r4)
                  else none
            else none
      else none

/-- Elements of a JSON array, starting at the first element. -/
def parseArrItems : Nat → List Char → Option (List Json × List Char)
  | 0, _ => none
  | Nat.succ fuel, s =>
    match parseValue fuel s with
    | none => none
    | some (v, r1) =>
      match skipWs r1 with
      | [] => none
      | c :: r2 =>
        if c = ',' then (parseArrItems fuel r2).map (fun p => (v :: p.1, p.2))
        else if c = ']' then some ([v], r2)
        else none

end

/-- Embedding of json.loads: parse one value and require only whitespace
after it. -/
def json_loads (s : String) : Option Json :=
  match parseValue (s.length + 1) s.toList with
  | some (v, rest) => if (skipWs rest).isEmpty then some v else none
  | none => none

/-- Python truthiness bool(v) on a decoded JSON value: None, False, zero,
the empty string, the empty array and the empty object are falsy. -/
def pyBool : Json → Bool
  | Json.null => false
  | Json.bool b => b
  | Json.num n => decide (n ≠ 0)
  | Json.str s => decide (s ≠ "")
  | Json.arr xs => !xs.isEmpty
  | Json.obj kvs => !kvs.isEmpty

/-- One dict assignment d[k] = v on an insertion-ordered association list
with unique keys (a Python dict can hold a key only once): an existing key
keeps its position and gets the new value, a new key is appended. -/
def updAssoc : List (String × β) → String → β → List (String × β)
  | [], k, v => [(k, v)]
  | p :: l, k, v => if p.1 = k then (k, v) :: l else p :: updAssoc l k v

/-- Repeated dict assignment: the semantics of dict.update and of building
a dict from a pair stream (duplicate keys keep the first position and the
last value). -/
def updateAssocList (store items : List (String × β)) : List (String × β) :=
  items.foldl (fun s p => updAssoc s p.1 p.2) store

/-- The dict produced by json.loads for an object literal, from the raw
member stream. -/
def dictOfPairs (kvs : List (String × Json)) : List (String × Json) :=
  updateAssocList [] kvs

/-- Outcome reported by import_progress via st.success or st.error. -/
inductive ImportResult where
  | success : ImportResult
  | malformed : ImportResult
  | parseError : ImportResult
deriving DecidableEq, Repr

/-- Embedding of import_progress (app.py lines 71 to 80): parse the text;
a non-object value is rejected, a parse failure is caught, and in both
failure cases the store is returned unchanged; an object is coerced value
by value with bool(v) and merged into the store with dict.update. -/
def import_progress (store : List (String × Bool)) (json_text : String) :
    ImportResult × List (String × Bool) :=
  match json_loads json_text with
  | some (Json.obj kvs) =>
    (ImportResult.success,
     updateAssocList store ((dictOfPairs kvs).map (fun p => (p.1, pyBool p.2))))
  | some _ => (ImportResult.malformed, store)
  | none => (ImportResult.parseError, store)

/-- Escape of one character inside a JSON string as json.dumps with
ensure_ascii=False performs it: backslash, quote and the named control
characters get two-character escapes, the remaining control characters a
\u00xx escape, everything else passes through. -/
def escapeChar (c : Char) : List Char :=
  if c = qC then [bsC, qC]
  else if c = bsC then [bsC, bsC]
  else if c = Char.ofNat 8 then [bsC, 'b']
  else if c = Char.ofNat 9 then [bsC, 't']
  else if c = Char.ofNat 10 then [bsC, 'n']
  else if c = Char.ofNat 12 then [bsC, 'f']
  else if c = Char.ofNat 13 then [bsC, 'r']
  else if c.toNat < 32 then
    [bsC, 'u', '0', '0', hexDigitLower (c.toNat / 16), hexDigitLower (c.toNat % 16)]
  else [c]

/-- A JSON string literal for s, quotes included. -/
def encodeStr (s : String) : List Char :=
  qC :: (s.toList.flatMap escapeChar) ++ [qC]

def boolLit : Bool → List Char
  | true => ['t', 'r', 'u', 'e']
  | false => ['f', 'a', 'l', 's', 'e']

/-- One object member as json.dumps(indent=2) prints it from the key
onwards: quoted key, colon, space, value. -/
def printItem (k : String) (v : Bool) : List Char :=
  encodeStr k ++ ':' :: ' ' :: boolLit v

/-- The member stream of json.dumps(indent=2) starting at the first key:
members separated by a comma, a newline and the two-space indent. -/
def itemsFromKey : List (String × Bool) → List Char
  | [] => []
  | (k, v) :: rest =>
    printItem k v ++
    (if rest.isEmpty then [] else [',', Char.ofNat 10, ' ', ' ']) ++
    itemsFromKey rest

/-- Embedding of json.dumps(status_map, ensure_ascii=False, indent=2): the
empty dict prints as two braces, otherwise every member sits on its own
two-space indented line between the braces. -/
def dumpsProgress (m : List (String × Bool)) : String :=
  if m.isEmpty then String.mk [lbC, rbC]
  else String.mk (lbC :: Char.ofNat 10 :: ' ' :: ' ' :: itemsFromKey m ++
                  Char.ofNat 10 :: rbC :: [])

/-- Embedding of export_progress (app.py lines 68 to 69). -/
def export_progress (store : List (String × Bool)) : String :=
  dumpsProgress store

/-- The within-bucket display-order key of the specification: the last two
sort columns. -/
def idAnoKey (r : Row) : Lex (String × Int) :=
  toLex (r.1.id_registro, r.1.ano_publicacao)

/-- Json value shape test: is the decoded value an object. -/
def jsonIsObj : Json → Bool
  | Json.obj _ => true
  | _ => false

/-- A concrete sample record used by witnesses and counterexamples. -/
def recA : Record :=
  { id_registro := "1", id_extracao := "e", titulo_artigo := "T",
    area_publicacao := "a", periodico := "p", ano_publicacao := 2020,
    autoria := "au", link_acesso := "", doi := "",
    categoria := "A", conceito := "B", descricao := "d" }

/-- A second sample record in the same bucket, sorting before recA. -/
def recB : Record :=
  { recA with id_registro := "0", ano_publicacao := 2019 }

/-- A session that already holds progress and a stale page cursor for the
bucket (A, B), as left behind by browsing a previous dataset. -/
def staleSession : SessionState :=
  { df := none, status_map := [("k::x-y::0", true)], data_dict := [],
    pageCursors := [(pageKey "A" "B", 20)] }

end Karine

namespace Karine

theorem skipWs_cons_not {c : Char} (h : isJsonWs c = false) (l : List Char) :
    skipWs (c :: l) = c :: l := by
  simp [skipWs, h]

theorem skipWs_cons_ws {c : Char} (h : isJsonWs c = true) (l : List Char) :
    skipWs (c :: l) = skipWs l := by
  simp [skipWs, h]

theorem parseHexDigit_hexDigitLower : ∀ d : Nat, d < 16 →
    parseHexDigit (hexDigitLower d) = some d := by
  decide

theorem parseStringBody_escaped (cs : List Char) : ∀ (fuel : Nat) (rest : List Char),
    cs.length + 1 ≤ fuel →
    parseStringBody fuel (cs.flatMap escapeChar ++ qC :: rest) = some (cs, rest) := by
  induction cs with
  | nil =>
    intro fuel rest hf
    obtain ⟨f, rfl⟩ : ∃ f, fuel = f + 1 := ⟨fuel - 1, by omega⟩
    simp [parseStringBody]
  | cons c cs ih =>
    intro fuel rest hf
    obtain ⟨f, rfl⟩ : ∃ f, fuel = f + 1 := ⟨fuel - 1, by simp at hf; omega⟩
    have ihf := ih f rest (by simp at hf; omega)
    by_cases h1 : c = qC
    · subst h1
      simp +decide [escapeChar, parseStringBody, ihf]
    · by_cases h2 : c = bsC
      · subst h2
        simp +decide [escapeChar, parseStringBody, ihf]
      · by_cases h3 : c = Char.ofNat 8
        · subst h3
          simp +decide [escapeChar, parseStringBody, ihf]
        · by_cases h4 : c = Char.ofNat 9
          · subst h4
            simp +decide [escapeChar, parseStringBody, ihf]
          · by_cases h5 : c = Char.ofNat 10
            · subst h5
              simp +decide [escapeChar, parseStringBody, ihf]
            · by_cases h6 : c = Char.ofNat 12
              · subst h6
                simp +decide [escapeChar, parseStringBody, ihf]
              · by_cases h7 : c = Char.ofNat 13
                · subst h7
                  simp +decide [escapeChar, parseStringBody, ihf]
                · by_cases h8 : c.toNat < 32
                  · have hdiv : c.toNat / 16 < 16 := by omega
                    have hmod : c.toNat % 16 < 16 := Nat.mod_lt _ (by norm_num)
                    have hhd := parseHexDigit_hexDigitLower _ hdiv
                    have hhm := parseHexDigit_hexDigitLower _ hmod
                    have hnum : ((0 * 16 + 0) * 16 + c.toNat / 16) * 16 + c.toNat % 16 =
                        c.toNat := by omega
                    have hz : parseHexDigit '0' = some 0 := by decide
                    simp only [escapeChar, h1, h2, h3, h4, h5, h6, h7, if_true,
                      if_false, h8, if_pos, List.flatMap_cons, List.cons_append,
                      List.append_assoc]
                    simp +decide only [parseStringBody, hz, hhd, hhm, ihf, if_true,
                      if_false, List.nil_append]
                    simp only [hnum, Char.ofNat_toNat]
                    rfl
                  · simp only [escapeChar, h1, h2, h3, h4, h5, h6, h7, h8, if_false,
                      List.flatMap_cons, List.cons_append, List.append_assoc]
                    simp [parseStringBody, h1, h2, h8, ihf]

theorem length_le_length_flatMap_escapeChar (cs : List Char) :
    cs.length ≤ (cs.flatMap escapeChar).length := by
  induction cs with
  | nil => simp
  | cons c cs ih =>
    simp only [List.flatMap_cons, List.length_append, List.length_cons]
    have h1 : 1 ≤ (escapeChar c).length := by
      unfold escapeChar
      split_ifs <;> simp
    omega

theorem parseValue_boolLit (f2 : Nat) (v : Bool) (rest : List Char) :
    parseValue (f2 + 1) (' ' :: (boolLit v ++ rest)) = some (Json.bool v, rest) := by
  cases v <;> simp +decide [parseValue, boolLit, skipWs, isJsonWs]

theorem parseObjItems_step (k : String) (v : Bool) (f : Nat) (tail : List Char) :
    parseObjItems (f + 1 + 1) (encodeStr k ++ ':' :: ' ' :: (boolLit v ++ tail)) =
      (match skipWs tail with
       | [] => none
       | c3 :: r4 =>
         if c3 = ',' then
           (parseObjItems (f + 1) (skipWs r4)).map (fun p => ((k, Json.bool v) :: p.1, p.2))
         else if c3 = rbC then some ([(k, Json.bool v)], r4)
         else none) := by
  have hstr := parseStringBody_escaped k.toList
    ((k.toList.flatMap escapeChar ++ qC :: (':' :: ' ' :: (boolLit v ++ tail))).length + 1)
    (':' :: ' ' :: (boolLit v ++ tail))
    (by
      have := length_le_length_flatMap_escapeChar k.toList
      simp only [List.length_append, List.length_cons]
      omega)
  have hval := parseValue_boolLit f v tail
  simp only [encodeStr, List.cons_append, List.append_assoc, List.nil_append,
    List.singleton_append]
  simp +decide only [parseObjItems, hstr, hval, skipWs_cons_not, if_true, if_false]
  rfl

theorem itemsFromKey_cons_shape (k2 : String) (v2 : Bool) (m2 : List (String × Bool)) :
    itemsFromKey ((k2, v2) :: m2) =
      qC :: (k2.toList.flatMap escapeChar ++ qC :: ':' :: ' ' ::
        (boolLit v2 ++ ((if m2.isEmpty then [] else [',', Char.ofNat 10, ' ', ' ']) ++
          itemsFromKey m2))) := by
  rw [itemsFromKey]
  simp [printItem, encodeStr, List.cons_append, List.append_assoc]

theorem parseObjItems_printed (m : List (String × Bool)) : ∀ (k : String) (v : Bool)
    (fuel : Nat) (rest : List Char), m.length + 2 ≤ fuel →
    parseObjItems fuel (itemsFromKey ((k, v) :: m) ++ Char.ofNat 10 :: rbC :: rest) =
      some (((k, v) :: m).map (fun p => (p.1, Json.bool p.2)), rest) := by
  induction m with
  | nil =>
    intro k v fuel rest hf
    obtain ⟨f, rfl⟩ : ∃ f, fuel = f + 2 := ⟨fuel - 2, by omega⟩
    have hunf : itemsFromKey [(k, v)] ++ Char.ofNat 10 :: rbC :: rest =
        encodeStr k ++ ':' :: ' ' :: (boolLit v ++ (Char.ofNat 10 :: rbC :: rest)) := by
      rw [itemsFromKey]
      simp [itemsFromKey, printItem, List.cons_append, List.append_assoc]
    rw [hunf]
    rw [show f + 2 = f + 1 + 1 from rfl, parseObjItems_step]
    simp +decide only [skipWs_cons_ws, skipWs_cons_not, if_true, if_false, List.map_cons,
      List.map_nil]
  | cons p m2 ih =>
    intro k v fuel rest hf
    obtain ⟨f, rfl⟩ : ∃ f, fuel = f + 2 := ⟨fuel - 2, by omega⟩
    obtain ⟨k2, v2⟩ := p
    have hunf : itemsFromKey ((k, v) :: (k2, v2) :: m2) ++ Char.ofNat 10 :: rbC :: rest =
        encodeStr k ++ ':' :: ' ' :: (boolLit v ++ (',' :: Char.ofNat 10 :: ' ' :: ' ' ::
          (itemsFromKey ((k2, v2) :: m2) ++ Char.ofNat 10 :: rbC :: rest))) := by
      rw [itemsFromKey]
      simp [printItem, List.cons_append, List.append_assoc]
    rw [hunf]
    rw [show f + 2 = f + 1 + 1 from rfl, parseObjItems_step]
    have hskip : skipWs (Char.ofNat 10 :: ' ' :: ' ' ::
        (itemsFromKey ((k2, v2) :: m2) ++ Char.ofNat 10 :: rbC :: rest)) =
        itemsFromKey ((k2, v2) :: m2) ++ Char.ofNat 10 :: rbC :: rest := by
      rw [itemsFromKey_cons_shape, List.cons_append]
      simp +decide only [skipWs_cons_ws, skipWs_cons_not]
    have hih := ih k2 v2 (f + 1) rest (by simp at hf ⊢; omega)
    simp +decide only [skipWs_cons_not, if_true, if_false, hskip, hih, Option.map_some,
      List.map_cons]
    rfl

theorem length_itemsFromKey_ge (m : List (String × Bool)) :
    m.length ≤ (itemsFromKey m).length := by
  induction m with
  | nil => simp [itemsFromKey]
  | cons p m ih =>
    obtain ⟨k, v⟩ := p
    rw [itemsFromKey]
    simp only [printItem, encodeStr, List.length_append, List.length_cons]
    omega

theorem json_loads_dumps_cons (k : String) (v : Bool) (m2 : List (String × Bool)) :
    json_loads (export_progress ((k, v) :: m2)) =
      some (Json.obj (((k, v) :: m2).map (fun p => (p.1, Json.bool p.2)))) := by
  have hitems := length_itemsFromKey_ge ((k, v) :: m2)
  have hexp : export_progress ((k, v) :: m2) =
      String.mk ((lbC :: Char.ofNat 10 :: ' ' :: ' ' :: itemsFromKey ((k, v) :: m2)) ++
        Char.ofNat 10 :: rbC :: []) := rfl
  have hflen : m2.length + 2 ≤
      ((lbC :: Char.ofNat 10 :: ' ' :: ' ' :: itemsFromKey ((k, v) :: m2)) ++
        Char.ofNat 10 :: rbC :: []).length := by
    simp only [List.length_append, List.length_cons] at hitems ⊢
    omega
  have hobj := parseObjItems_printed m2 k v
    (((lbC :: Char.ofNat 10 :: ' ' :: ' ' :: itemsFromKey ((k, v) :: m2)) ++
      Char.ofNat 10 :: rbC :: []).length) [] hflen
  have hqhead : itemsFromKey ((k, v) :: m2) ++ Char.ofNat 10 :: rbC :: [] =
      qC :: ((k.toList.flatMap escapeChar ++ qC :: ':' :: ' ' ::
        (boolLit v ++ ((if m2.isEmpty then [] else [',', Char.ofNat 10, ' ', ' ']) ++
          itemsFromKey m2))) ++ Char.ofNat 10 :: rbC :: []) := by
    rw [itemsFromKey_cons_shape, List.cons_append]
  simp only [List.cons_append] at hobj
  rw [hexp, json_loads]
  have ht : (String.mk ((lbC :: Char.ofNat 10 :: ' ' :: ' ' :: itemsFromKey ((k, v) :: m2)) ++
      Char.ofNat 10 :: rbC :: [])).toList =
      (lbC :: Char.ofNat 10 :: ' ' :: ' ' :: itemsFromKey ((k, v) :: m2)) ++
        Char.ofNat 10 :: rbC :: [] := rfl
  have hlen : (String.mk ((lbC :: Char.ofNat 10 :: ' ' :: ' ' :: itemsFromKey ((k, v) :: m2)) ++
      Char.ofNat 10 :: rbC :: [])).length =
      ((lbC :: Char.ofNat 10 :: ' ' :: ' ' :: itemsFromKey ((k, v) :: m2)) ++
        Char.ofNat 10 :: rbC :: []).length := rfl
  rw [ht, hlen]
  simp only [parseValue, List.cons_append]
  rw [hqhead]
  simp +decide only [skipWs_cons_ws, skipWs_cons_not, if_true, if_false]
  rw [← hqhead, hobj]
  simp [skipWs]

/-- C10: the record key is not injective: joining id_registro and conceito
with a dash lets two rows with the same position index but different
(id_registro, conceito) pairs collide, as for ids a-b/a with concepts
c/b-c. -/
theorem record_key_collision :
    make_record_key ⟨some "a-b", some "c", some 0⟩ =
      make_record_key ⟨some "a", some "b-c", some 0⟩ ∧
    ¬ ("a-b" = "a" ∧ "c" = "b-c") := by
  decide

/-- C9: make_record_key is a pure total function of id_registro, conceito
and the position index: its output is the fixed format below, identical
inputs give identical output, and a missing field is rendered as the empty
string instead of failing. -/
theorem record_key_deterministic (i c : String) (n : Nat) (r1 r2 : KeyRow)
    (h : r1 = r2) :
    make_record_key ⟨some i, some c, some n⟩ =
      "k::" ++ i ++ "-" ++ c ++ "::" ++ toString n ∧
    make_record_key ⟨none, none, none⟩ = "k::-::" ∧
    make_record_key ⟨none, some c, some n⟩ = "k::" ++ "-" ++ c ++ "::" ++ toString n ∧
    make_record_key r1 = make_record_key r2 := by
  subst h
  refine ⟨?_, by decide, ?_, rfl⟩
  · simp [make_record_key, Option.getD, String.append_assoc]
  · simp [make_record_key, Option.getD, String.append_assoc]
    rfl

theorem record_key_deterministic_witness :
    make_record_key ⟨some "x", some "y", some 3⟩ = "k::" ++ "x" ++ "-" ++ "y" ++ "::" ++ toString 3 :=
  (record_key_deterministic "x" "y" 3 ⟨none, none, none⟩ ⟨none, none, none⟩ rfl).1

/-- C1 counterexample: with 45 records, after one reveal-more action only
20 records are visible (records 20 to 39), not 40, so the visible window is
not records[0 : cursor + PAGE_SIZE]. -/
theorem pagination_not_cumulative_counterexample :
    (visibleRecords (List.range 45) (clickLoadMore 0)).length = 20 ∧
    (visibleRecords (List.range 45) (clickLoadMore 0)).length ≠ 40 ∧
    visibleRecords (List.range 45) (clickLoadMore 0) ≠ (List.range 45).take (clickLoadMore 0 + PAGE_SIZE) := by
  decide

/-- C1 (amended): the visible window is the sliding slice
records[cursor : cursor + PAGE_SIZE]. For a bucket of 45 records: the first
render shows records 0 to 19; after one reveal-more, records 20 to 39 (20
visible); after a second, records 40 to 44 (5 visible), the load-more
affordance is hidden and the cursor is reset to 0 during that render, so
the next access shows the first 20 records again. -/
theorem pagination_sliding_window {α : Type} (records : List α)
    (h : records.length = 45) :
    visibleRecords records 0 = records.take PAGE_SIZE ∧
    (visibleRecords records 0).length = 20 ∧
    loadMoreShown records.length 0 = true ∧
    visibleRecords records (clickLoadMore 0) = (records.drop 20).take 20 ∧
    (visibleRecords records (clickLoadMore 0)).length = 20 ∧
    loadMoreShown records.length (clickLoadMore 0) = true ∧
    visibleRecords records (clickLoadMore (clickLoadMore 0)) = records.drop 40 ∧
    (visibleRecords records (clickLoadMore (clickLoadMore 0))).length = 5 ∧
    loadMoreShown records.length (clickLoadMore (clickLoadMore 0)) = false ∧
    renderCursorUpdate records.length (clickLoadMore (clickLoadMore 0)) = 0 ∧
    (∀ c, visibleRecords records c = (records.drop c).take PAGE_SIZE) := by
  refine ⟨?_, ?_, ?_, rfl, ?_, ?_, ?_, ?_, ?_, ?_, fun c => rfl⟩
  · simp [visibleRecords, PAGE_SIZE]
  · simp [visibleRecords, PAGE_SIZE, h]
  · simp [loadMoreShown, PAGE_SIZE, h]
  · simp [visibleRecords, clickLoadMore, PAGE_SIZE, h]
  · simp [loadMoreShown, clickLoadMore, PAGE_SIZE, h]
  · show (records.drop 40).take 20 = records.drop 40
    exact List.take_of_length_le (by simp [h])
  · simp [visibleRecords, clickLoadMore, PAGE_SIZE, h]
  · simp [loadMoreShown, clickLoadMore, PAGE_SIZE, h]
  · simp [renderCursorUpdate, clickLoadMore, PAGE_SIZE, h]

theorem pagination_sliding_window_witness :
    (List.range 45).length = 45 ∧
    visibleRecords (List.range 45) 0 = (List.range 45).take PAGE_SIZE :=
  ⟨by decide, (pagination_sliding_window (List.range 45) (by decide)).1⟩

/-- C2 counterexample: processing a new table does not discard the page
cursor slots: a stale cursor of 20 for bucket (A, B) survives re-ingestion,
so that bucket does not behave as freshly initialized to 0. -/
theorem ingest_keeps_stale_cursor_counterexample :
    (processUpload staleSession REQUIRED_COLS [recA]).2 = none ∧
    pageStart (processUpload staleSession REQUIRED_COLS [recA]).1 "A" "B" = 20 ∧
    pageStart (processUpload staleSession REQUIRED_COLS [recA]).1 "A" "B" ≠ 0 := by
  exact ⟨rfl, rfl, by decide⟩

/-- C2 (amended): processing a table rebuilds the group index and stores the
dataframe, leaves the progress store completely unchanged, and also leaves
every page cursor slot unchanged: stale per-bucket cursors from a previous
dataset are kept and reused. -/
theorem ingest_frame_effect (st : SessionState) (cols : List String)
    (rows : List Record) (h : validate_columns cols = []) :
    (processUpload st cols rows).1.status_map = st.status_map ∧
    (processUpload st cols rows).1.pageCursors = st.pageCursors ∧
    (processUpload st cols rows).1.data_dict = preprocess_data rows ∧
    (processUpload st cols rows).1.df = some rows := by
  simp [processUpload, h]

theorem ingest_frame_effect_witness :
    (processUpload staleSession REQUIRED_COLS [recA]).1.status_map = staleSession.status_map ∧
    (processUpload staleSession REQUIRED_COLS [recA]).1.pageCursors = staleSession.pageCursors ∧
    (processUpload staleSession REQUIRED_COLS [recA]).1.data_dict = preprocess_data [recA] ∧
    (processUpload staleSession REQUIRED_COLS [recA]).1.df = some [recA] :=
  ingest_frame_effect staleSession REQUIRED_COLS [recA] (by decide)

/-- C3 counterexample: link_acesso with a trailing space case-insensitively
starts with https://, yet the rendered link is the stripped value, not the
field verbatim. -/
theorem link_not_verbatim_counterexample :
    startsWithHttp (asciiLower "https://example.com/x ") = true ∧
    (renderLinks "T" "https://example.com/x " "").1 = "https://example.com/x" ∧
    "https://example.com/x" ≠ "https://example.com/x " := by
  refine ⟨rfl, rfl, ?_⟩
  decide

/-- C3 (amended): both links are computed from the whitespace-stripped field
values: the stripped link_acesso (or doi) is returned when it
case-insensitively starts with http:// or https://, otherwise the Google
Scholar fallback built from the percent-encoded stripped title is returned
(spaces encoded as plus signs); an empty title still yields the bare
template, and the doi rule is applied independently. -/
theorem link_resolution (titulo link_acesso doi : String) :
    (startsWithHttp (asciiLower (pyStrip link_acesso)) = true →
      (renderLinks titulo link_acesso doi).1 = pyStrip link_acesso) ∧
    (startsWithHttp (asciiLower (pyStrip link_acesso)) = false →
      (renderLinks titulo link_acesso doi).1 =
        "https://scholar.google.com/scholar?q=" ++ quotePlus (pyStrip titulo)) ∧
    (startsWithHttp (asciiLower (pyStrip doi)) = true →
      (renderLinks titulo link_acesso doi).2 = pyStrip doi) ∧
    (startsWithHttp (asciiLower (pyStrip doi)) = false →
      (renderLinks titulo link_acesso doi).2 =
        "https://scholar.google.com/scholar?q=" ++ quotePlus (pyStrip titulo)) ∧
    (renderLinks "Foo Bar" "not-a-url" "").1 =
      "https://scholar.google.com/scholar?q=Foo+Bar" ∧
    (renderLinks "Foo Bar" "https://example.com/x" "").1 = "https://example.com/x" ∧
    (renderLinks "" "not-a-url" "").1 = "https://scholar.google.com/scholar?q=" := by
  refine ⟨?_, ?_, ?_, ?_, rfl, rfl, rfl⟩ <;>
    (intro h; simp [renderLinks, scholarLink, h])

theorem link_resolution_witness :
    (renderLinks "T" " https://example.com/x" "").1 = pyStrip " https://example.com/x" :=
  (link_resolution "T" " https://example.com/x" "").1 rfl

/-- C8: ingestion of a table with missing required columns is rejected with
the full list of missing column names in one message and no session slot is
touched (in particular no group index is built); with all twelve columns
present ingestion proceeds, and extra columns are ignored. -/
theorem missing_columns_rejection (st : SessionState) (cols : List String)
    (rows : List Record) :
    (validate_columns cols ≠ [] →
      processUpload st cols rows = (st, some (validate_columns cols))) ∧
    (validate_columns cols = [] →
      processUpload st cols rows =
        ({ st with df := some rows, data_dict := preprocess_data rows }, none)) ∧
    validate_columns (REQUIRED_COLS.erase "doi") = ["doi"] ∧
    missingColumnsMessage ["doi"] = "Arquivo invalido. Colunas ausentes: doi" ∧
    (∀ extra : List String, validate_columns (REQUIRED_COLS ++ extra) = []) := by
  refine ⟨?_, ?_, by decide, rfl, ?_⟩
  · intro h
    simp [processUpload, List.isEmpty_iff, h]
  · intro h
    simp [processUpload, h]
  · intro extra
    simp only [validate_columns, List.filter_eq_nil_iff]
    intro a ha
    simp
    intro hnot
    exact absurd ha hnot

theorem missing_columns_rejection_witness :
    processUpload staleSession (REQUIRED_COLS.erase "doi") [recA] =
      (staleSession, some (validate_columns (REQUIRED_COLS.erase "doi"))) :=
  (missing_columns_rejection staleSession (REQUIRED_COLS.erase "doi") [recA]).1 (by decide)

/-- C6: import_progress rejects a non-object JSON value as malformed and a
syntactically invalid blob as a parse error, and in both failure cases the
existing store is returned unchanged; the failure is confined to that one
attempt to load progress. -/
theorem import_failure_atomic (store : List (String × Bool)) (text : String) :
    import_progress store "[1,2,3]" = (ImportResult.malformed, store) ∧
    (∀ v, json_loads text = some v → jsonIsObj v = false →
      import_progress store text = (ImportResult.malformed, store)) ∧
    (json_loads text = none →
      import_progress store text = (ImportResult.parseError, store)) ∧
    import_progress store "not json" = (ImportResult.parseError, store) := by
  refine ⟨rfl, ?_, ?_, rfl⟩
  · intro v h hobj
    cases v <;> simp_all [import_progress, jsonIsObj]
  · intro h
    simp [import_progress, h]

theorem lookup_cons_pair {β : Type} (k : String) (b : β) (l : List (String × β)) (a : String) :
    ((k, b) :: l).lookup a = if a = k then some b else l.lookup a := by
  rw [List.lookup_cons]
  split <;> rename_i hb <;> simp_all

theorem lookup_updAssoc {β : Type} (l : List (String × β)) (k k2 : String) (v : β) :
    (updAssoc l k v).lookup k2 = if k2 = k then some v else l.lookup k2 := by
  induction l with
  | nil =>
    by_cases hk : k2 = k <;> simp [updAssoc, lookup_cons_pair, List.lookup_nil, hk]
  | cons p l ih =>
    obtain ⟨k1, b1⟩ := p
    by_cases hp : k1 = k
    · subst hp
      by_cases hk : k2 = k1 <;> simp [updAssoc, lookup_cons_pair, hk]
    · by_cases h1 : k2 = k1 <;> by_cases h2 : k2 = k <;>
        simp_all [updAssoc, hp, lookup_cons_pair, ih]

theorem lookup_updateAssocList {β : Type} (items store : List (String × β)) (k : String) :
    (updateAssocList store items).lookup k = (items.reverse.lookup k).or (store.lookup k) := by
  induction items generalizing store with
  | nil => simp [updateAssocList]
  | cons p items ih =>
    obtain ⟨k1, b1⟩ := p
    have h1 : updateAssocList store ((k1, b1) :: items) =
        updateAssocList (updAssoc store k1 b1) items := rfl
    rw [h1, ih, List.reverse_cons, List.lookup_append, Option.or_assoc, lookup_updAssoc]
    by_cases hk : k = k1 <;> simp [hk, lookup_cons_pair, List.lookup_nil]

theorem updAssoc_append_of_not_mem {β : Type} (acc : List (String × β)) (k : String) (v : β)
    (h : k ∉ acc.map Prod.fst) : updAssoc acc k v = acc ++ [(k, v)] := by
  induction acc with
  | nil => rfl
  | cons p acc ih =>
    simp only [List.map_cons, List.mem_cons] at h
    push_neg at h
    have hp : ¬ p.1 = k := fun hc => h.1 hc.symm
    obtain ⟨k1, b1⟩ := p
    simp only [updAssoc, if_neg hp, List.cons_append]
    rw [ih h.2]

theorem updateAssocList_of_disjoint {β : Type} (l : List (String × β)) :
    ∀ acc : List (String × β), (l.map Prod.fst).Nodup →
      (∀ q ∈ l, q.1 ∉ acc.map Prod.fst) → updateAssocList acc l = acc ++ l := by
  induction l with
  | nil => intro acc _ _; simp [updateAssocList]
  | cons p l ih =>
    intro acc hnd hdisj
    rw [List.map_cons, List.nodup_cons] at hnd
    obtain ⟨hp_not, hnd2⟩ := hnd
    have hdisj2 : ∀ q ∈ l, q.1 ∉ (acc ++ [(p.1, p.2)]).map Prod.fst := by
      intro q hq hmem
      rw [List.map_append] at hmem
      rcases List.mem_append.mp hmem with hin | hin
      · exact hdisj q (List.mem_cons_of_mem p hq) hin
      · simp only [List.map_cons, List.map_nil, List.mem_cons, List.not_mem_nil,
          or_false] at hin
        exact hp_not (hin ▸ List.mem_map_of_mem Prod.fst hq)
    have h1 : updateAssocList acc (p :: l) = updateAssocList (updAssoc acc p.1 p.2) l := rfl
    rw [h1, updAssoc_append_of_not_mem acc p.1 p.2 (hdisj p (List.mem_cons_self p l)),
      ih (acc ++ [(p.1, p.2)]) hnd2 hdisj2]
    simp

theorem dictOfPairs_eq_self (kvs : List (String × Json))
    (h : (kvs.map Prod.fst).Nodup) : dictOfPairs kvs = kvs := by
  have := updateAssocList_of_disjoint kvs [] h (by simp)
  simpa [dictOfPairs] using this

theorem mem_groupByKey {α : Type} {f : α → String} {xs : List α}
    {p : String × List α} (h : p ∈ groupByKey f xs) :
    p.2 = xs.filter (fun y => f y = p.1) := by
  obtain ⟨k, _, heq⟩ := List.mem_map.mp h
  rw [← heq]

theorem rowLe_fixed_keys {a b : Row} (hcat : a.1.categoria = b.1.categoria)
    (hconc : a.1.conceito = b.1.conceito) (h : rowLe a b) :
    idAnoKey a ≤ idAnoKey b := by
  simp only [rowLe, sortKey] at h
  rcases (Prod.Lex.le_iff _ _).mp h with hlt | ⟨_, h2⟩
  · rw [hcat] at hlt
    exact absurd hlt (lt_irrefl _)
  · rcases (Prod.Lex.le_iff _ _).mp h2 with hlt2 | ⟨_, h3⟩
    · rw [hconc] at hlt2
      exact absurd hlt2 (lt_irrefl _)
    · exact h3

/-- C4: preprocess_data sorts the indexed rows by the four-column key
(categoria and conceito already string-typed) with a stable sort, then
groups by categoria and conceito in first-seen order of the sorted stream;
hence every bucket is non-decreasing in (id_registro, ano_publicacao), a
bucket of the group index holds exactly the indexed input rows carrying its
category and concept labels, and grouping the same input twice yields the
same index. -/
theorem grouping_sorted_buckets (rows : List Record) (cat conc : String)
    (grp : List (String × List Row)) (bucket : List Row)
    (h1 : (cat, grp) ∈ preprocess_data rows) (h2 : (conc, bucket) ∈ grp) :
    bucket.Pairwise (fun a b => idAnoKey a ≤ idAnoKey b) ∧
    (∀ r : Row, r ∈ bucket ↔
      (r ∈ rows.enum.map (fun p => (p.2, p.1)) ∧
       r.1.categoria = cat ∧ r.1.conceito = conc)) ∧
    preprocess_data rows = preprocess_data rows := by
  have hsorted : (List.insertionSort rowLe (rows.enum.map (fun p => (p.2, p.1)))).Sorted rowLe :=
    List.sorted_insertionSort rowLe _
  obtain ⟨q, hq, heq⟩ := List.mem_map.mp h1
  have hq2 : q.2 = (List.insertionSort rowLe (rows.enum.map (fun p => (p.2, p.1)))).filter
      (fun y => y.1.categoria = q.1) := mem_groupByKey hq
  have hcat : q.1 = cat := congrArg Prod.fst heq
  have hgrp : grp = groupByKey (fun r => r.1.conceito) q.2 := (congrArg Prod.snd heq).symm
  have hbucket : bucket = q.2.filter (fun y => y.1.conceito = conc) := by
    have := mem_groupByKey (hgrp ▸ h2)
    simpa using this
  subst hcat
  constructor
  · have hp1 : q.2.Pairwise rowLe := by
      rw [hq2]
      exact (List.Pairwise.filter _ hsorted)
    have hp2 : bucket.Pairwise rowLe := by
      rw [hbucket]
      exact List.Pairwise.filter _ hp1
    refine List.Pairwise.imp_of_mem ?_ hp2
    intro a b ha hb hab
    have hma := List.mem_filter.mp (hbucket ▸ ha)
    have hmb := List.mem_filter.mp (hbucket ▸ hb)
    have hca := List.mem_filter.mp (hq2 ▸ hma.1)
    have hcb := List.mem_filter.mp (hq2 ▸ hmb.1)
    refine rowLe_fixed_keys ?_ ?_ hab
    · have h1a := of_decide_eq_true hca.2
      have h1b := of_decide_eq_true hcb.2
      rw [h1a, h1b]
    · have h2a := of_decide_eq_true hma.2
      have h2b := of_decide_eq_true hmb.2
      rw [h2a, h2b]
  refine ⟨?_, rfl⟩
  intro r
  constructor
  · intro hr
    have hm := List.mem_filter.mp (hbucket ▸ hr)
    have hc := List.mem_filter.mp (hq2 ▸ hm.1)
    refine ⟨(List.perm_insertionSort rowLe _).mem_iff.mp hc.1,
      of_decide_eq_true hc.2, of_decide_eq_true hm.2⟩
  · intro ⟨hmem, hrcat, hrconc⟩
    rw [hbucket]
    refine List.mem_filter.mpr ⟨?_, by simp [hrconc]⟩
    rw [hq2]
    refine List.mem_filter.mpr ⟨?_, by simp [hrcat]⟩
    exact (List.perm_insertionSort rowLe _).mem_iff.mpr hmem

theorem grouping_sorted_buckets_witness :
    ((recA, 0) : Row) ∈ [((recA, 0) : Row)] ↔
      (((recA, 0) : Row) ∈ ([recA].enum.map (fun p => (p.2, p.1))) ∧
       recA.categoria = "A" ∧ recA.conceito = "B") := by
  have hpre : preprocess_data [recA] = [("A", [("B", [(recA, 0)])])] := rfl
  refine (grouping_sorted_buckets [recA] "A" "B" [("B", [(recA, 0)])]
      [(recA, 0)] ?_ (List.mem_singleton.mpr rfl)).2.1 ((recA, 0) : Row)
  rw [hpre]
  exact List.mem_singleton.mpr rfl

/-- C5: a successful import coerces every incoming value with bool() and
merges it into the store with dict.update: the value of any key in the
result is the incoming value when the payload carries the key (last
occurrence winning) and the previous store value otherwise, so incoming
keys overwrite, store-only keys stay untouched and payload-only keys are
added; the concrete store a=true, b=false merged with the payload b=true,
c=true gives a=true, b=true, c=true. -/
theorem import_merge_semantics (store : List (String × Bool))
    (kvs : List (String × Json)) (text : String)
    (h : json_loads text = some (Json.obj kvs)) :
    (import_progress store text).1 = ImportResult.success ∧
    (∀ k, (import_progress store text).2.lookup k =
      ((((dictOfPairs kvs).map (fun p => (p.1, pyBool p.2))).reverse.lookup k).or
        (store.lookup k))) ∧
    import_progress [("a", true), ("b", false)] "\x7b\"b\": true, \"c\": true\x7d" =
      (ImportResult.success, [("a", true), ("b", true), ("c", true)]) := by
  refine ⟨?_, ?_, rfl⟩
  · simp [import_progress, h]
  · intro k
    simp only [import_progress, h]
    exact lookup_updateAssocList _ store k

theorem import_merge_semantics_witness :
    (import_progress [("a", true), ("b", false)] "\x7b\"b\": true, \"c\": true\x7d").1 =
      ImportResult.success :=
  (import_merge_semantics [("a", true), ("b", false)]
    [("b", Json.bool true), ("c", Json.bool true)]
    "\x7b\"b\": true, \"c\": true\x7d" rfl).1

theorem import_failure_atomic_witness :
    import_progress [("a", true)] "[1,2,3]" = (ImportResult.malformed, [("a", true)]) ∧
    import_progress [("a", true)] "not json" = (ImportResult.parseError, [("a", true)]) :=
  ⟨(import_failure_atomic [("a", true)] "[1,2,3]").2.1
      (Json.arr [Json.num 1, Json.num 2, Json.num 3]) rfl rfl,
   (import_failure_atomic [("a", true)] "not json").2.2.2⟩

/-- C7: exporting any progress store (a mapping, so its keys are distinct)
and importing the exact resulting blob into a fresh empty store succeeds
and yields a mapping identical to the original. -/
theorem progress_roundtrip (m : List (String × Bool))
    (hnd : (m.map Prod.fst).Nodup) :
    import_progress [] (export_progress m) = (ImportResult.success, m) := by
  cases m with
  | nil => rfl
  | cons p m2 =>
    obtain ⟨k, v⟩ := p
    have hloads := json_loads_dumps_cons k v m2
    simp only [import_progress, hloads]
    have hkeys : ((((k, v) :: m2).map (fun p => (p.1, Json.bool p.2))).map Prod.fst).Nodup := by
      simpa [List.map_map, Function.comp] using hnd
    rw [dictOfPairs_eq_self _ hkeys]
    have hcomp : ((fun p : String × Json => (p.1, pyBool p.2)) ∘
        fun p : String × Bool => (p.1, Json.bool p.2)) = id := by
      funext p
      rfl
    have hmap : (((k, v) :: m2).map (fun p => (p.1, Json.bool p.2))).map
        (fun p => (p.1, pyBool p.2)) = (k, v) :: m2 := by
      rw [List.map_map, hcomp, List.map_id]
    rw [hmap, updateAssocList_of_disjoint _ [] hnd (by simp)]
    simp

theorem progress_roundtrip_witness :
    import_progress [] (export_progress [("k::1-B::0", true), ("x", false)]) =
      (ImportResult.success, [("k::1-B::0", true), ("x", false)]) :=
  progress_roundtrip [("k::1-B::0", true), ("x", false)] (by decide)

end Karine
